import Mathlib

/-!
Verification development for the Eliza framework adapter
(`src/index.ts` of sdk-framework-eliza).

The TypeScript source is shallowly embedded: the class fields of
`ElizaFramework` become an explicit `FrameworkState`, JavaScript `Map`s
become insertion-ordered association lists, the external storage adapter
is modelled from its contract (spec section 6), and the generative
backend is an oracle argument.  Machine-level hashing (`crypto` sha256
over `JSON.stringify`) is implemented executably over `Nat` reduced
mod 2^32.
-/

set_option maxRecDepth 10000

/-! ### Insertion-ordered maps (JavaScript `Map` semantics)

A JS `Map` preserves insertion order; `set` on an existing key replaces
in place, otherwise appends.  We model it as an association list. -/

def mapGet? {α β : Type} [BEq α] : List (α × β) → α → Option β
  | [], _ => none
  | (k, v) :: rest, a => if k == a then some v else mapGet? rest a

def mapSet {α β : Type} [BEq α] : List (α × β) → α → β → List (α × β)
  | [], a, b => [(a, b)]
  | (k, v) :: rest, a, b =>
    if k == a then (a, b) :: rest else (k, v) :: mapSet rest a b

def mapHas {α β : Type} [BEq α] (l : List (α × β)) (a : α) : Bool :=
  (mapGet? l a).isSome

/-- Number of entries stored under a key. A JS `Map` keeps this at most 1. -/
def countKey {α β : Type} [BEq α] : List (α × β) → α → Nat
  | [], _ => 0
  | (k, _) :: rest, a => (if k == a then 1 else 0) + countKey rest a

theorem mapGet?_mapSet_self {α β : Type} [BEq α] [LawfulBEq α]
    (l : List (α × β)) (a : α) (b : β) : mapGet? (mapSet l a b) a = some b := by
  induction l with
  | nil => simp [mapSet, mapGet?]
  | cons hd tl ih =>
    by_cases h : hd.1 == a
    · simp [mapSet, mapGet?, h]
    · cases hd
      simp_all [mapSet, mapGet?, h]

theorem countKey_mapSet_ne {α β : Type} [BEq α] [LawfulBEq α]
    (l : List (α × β)) (a k : α) (b : β) (hne : a ≠ k) :
    countKey (mapSet l a b) k = countKey l k := by
  have hab : (a == k) = false := by simp [hne]
  induction l with
  | nil => simp [mapSet, countKey, hab]
  | cons hd tl ih =>
    cases hd with
    | mk k' v' =>
      by_cases h1 : k' = a
      · subst h1
        simp [mapSet, countKey, hab]
      · have h1b : (k' == a) = false := by simp [h1]
        simp [mapSet, countKey, h1b, ih]

theorem countKey_mapSet_self_le {α β : Type} [BEq α] [LawfulBEq α]
    (l : List (α × β)) (k : α) (b : β) :
    countKey (mapSet l k b) k ≤ max 1 (countKey l k) := by
  induction l with
  | nil => simp [mapSet, countKey]
  | cons hd tl ih =>
    cases hd with
    | mk k' v' =>
      by_cases h1 : k' = k
      · subst h1
        simp [mapSet, countKey]
      · have h1b : (k' == k) = false := by simp [h1]
        simp [mapSet, countKey, h1b] at ih ⊢
        omega

theorem countKey_mapSet_le {α β : Type} [BEq α] [LawfulBEq α]
    (l : List (α × β)) (a k : α) (b : β) (h : countKey l k ≤ 1) :
    countKey (mapSet l a b) k ≤ 1 := by
  by_cases hak : a = k
  · subst hak
    have := countKey_mapSet_self_le l a b
    omega
  · rw [countKey_mapSet_ne l a k b hak]
    exact h

/-- Two lists hold the same set of elements (boolean, decidable form). -/
def sameSet (l1 l2 : List String) : Bool :=
  l1.all (fun x => l2.contains x) && l2.all (fun x => l1.contains x)

theorem sameSet_iff (l1 l2 : List String) :
    sameSet l1 l2 = true ↔ (∀ x, x ∈ l1 ↔ x ∈ l2) := by
  constructor
  · intro h x
    simp [sameSet, List.all_eq_true] at h
    constructor
    · intro hx
      exact h.1 x hx
    · intro hx
      exact h.2 x hx
  · intro h
    simp [sameSet, List.all_eq_true]
    constructor
    · intro x hx
      exact (h x).mp hx
    · intro x hx
      exact (h x).mpr hx

/-! ### SHA-256 (FIPS 180-4), executable over `Nat`

`generatePersonalityHash` in the source is
`crypto.createHash("sha256").update(JSON.stringify(data)).digest("hex")`.
We implement the digest faithfully; all 32-bit words are `Nat` values
kept below `2^32` by explicit reduction. -/

def w32mod : Nat := 4294967296

def add32 (a b : Nat) : Nat := (a + b) % w32mod

def rotr32 (n x : Nat) : Nat := ((x >>> n) ||| (x <<< (32 - n))) % w32mod

def shr32 (n x : Nat) : Nat := x >>> n

def xor3 (a b c : Nat) : Nat := (a ^^^ b) ^^^ c

def sha256K : List Nat :=
  [1116352408, 1899447441, 3049323471, 3921009573, 961987163,
   1508970993, 2453635748, 2870763221, 3624381080, 310598401,
   607225278, 1426881987, 1925078388, 2162078206, 2614888103,
   3248222580, 3835390401, 4022224774, 264347078, 604807628,
   770255983, 1249150122, 1555081692, 1996064986, 2554220882,
   2821834349, 2952996808, 3210313671, 3336571891, 3584528711,
   113926993, 338241895, 666307205, 773529912, 1294757372,
   1396182291, 1695183700, 1986661051, 2177026350, 2456956037,
   2730485921, 2820302411, 3259730800, 3345764771, 3516065817,
   3600352804, 4094571909, 275423344, 430227734, 506948616,
   659060556, 883997877, 958139571, 1322822218, 1537002063,
   1747873779, 1955562222, 2024104815, 2227730452, 2361852424,
   2428436474, 2756734187, 3204031479, 3329325298]

def sha256H0 : List Nat :=
  [1779033703, 3144134277, 1013904242, 2773480762, 1359893119,
   2600822924, 528734635, 1541459225]

/-- Big-endian assembly of bytes into 32-bit words. -/
def bytesToWords : List Nat → List Nat
  | b0 :: b1 :: b2 :: b3 :: rest =>
    (((b0 * 256 + b1) * 256 + b2) * 256 + b3) :: bytesToWords rest
  | _ => []

/-- Extend the 16-word message schedule by `fuel` further words. -/
def scheduleFrom (w : Array Nat) : Nat → Array Nat
  | 0 => w
  | fuel + 1 =>
    let i := w.size
    let x15 := w.getD (i - 15) 0
    let x2 := w.getD (i - 2) 0
    let s0 := xor3 (rotr32 7 x15) (rotr32 18 x15) (shr32 3 x15)
    let s1 := xor3 (rotr32 17 x2) (rotr32 19 x2) (shr32 10 x2)
    scheduleFrom (w.push (add32 (add32 (w.getD (i - 16) 0) s0) (add32 (w.getD (i - 7) 0) s1))) fuel

structure Hash8 where
  a : Nat
  b : Nat
  c : Nat
  d : Nat
  e : Nat
  f : Nat
  g : Nat
  h : Nat

def sha256Round (st : Hash8) (kw : Nat × Nat) : Hash8 :=
  let bigS1 := xor3 (rotr32 6 st.e) (rotr32 11 st.e) (rotr32 25 st.e)
  let ch := (st.e &&& st.f) ^^^ ((st.e ^^^ 0xffffffff) &&& st.g)
  let temp1 := add32 (add32 st.h bigS1) (add32 ch (add32 kw.1 kw.2))
  let bigS0 := xor3 (rotr32 2 st.a) (rotr32 13 st.a) (rotr32 22 st.a)
  let maj := (st.a &&& st.b) ^^^ ((st.a &&& st.c) ^^^ (st.b &&& st.c))
  let temp2 := add32 bigS0 maj
  ⟨add32 temp1 temp2, st.a, st.b, st.c, add32 st.d temp1, st.e, st.f, st.g⟩

def sha256Compress (hs : List Nat) (chunk : List Nat) : List Nat :=
  let w := scheduleFrom (Array.mk (bytesToWords chunk)) 48
  let init : Hash8 :=
    ⟨hs.getD 0 0, hs.getD 1 0, hs.getD 2 0, hs.getD 3 0,
     hs.getD 4 0, hs.getD 5 0, hs.getD 6 0, hs.getD 7 0⟩
  let fin := (sha256K.zip w.toList).foldl sha256Round init
  List.zipWith add32 hs [fin.a, fin.b, fin.c, fin.d, fin.e, fin.f, fin.g, fin.h]

/-- `k` bytes of `n`, big-endian. -/
def beBytes : Nat → Nat → List Nat
  | 0, _ => []
  | k + 1, n => beBytes k (n / 256) ++ [n % 256]

/-- FIPS 180-4 padding: append 0x80, zeros, then the 64-bit bit length. -/
def padBytes (msg : List Nat) : List Nat :=
  let L := msg.length
  let zeros := (64 + 55 - (L % 64)) % 64
  msg ++ [0x80] ++ List.replicate zeros 0 ++ beBytes 8 (8 * L)

/-- Split into 64-byte blocks (fuel-based so the kernel can reduce it;
each step consumes at least one element, so `l.length` fuel suffices). -/
def toBlocksFuel : Nat → List Nat → List (List Nat)
  | 0, _ => []
  | _, [] => []
  | fuel + 1, x :: xs => ((x :: xs).take 64) :: toBlocksFuel fuel ((x :: xs).drop 64)

def toBlocks (l : List Nat) : List (List Nat) := toBlocksFuel l.length l

/-- The eight 32-bit state words of the SHA-256 digest of a byte string. -/
def sha256Words (msg : List Nat) : List Nat :=
  (toBlocks (padBytes msg)).foldl sha256Compress sha256H0

def hexDigit (n : Nat) : Char :=
  if n < 10 then Char.ofNat (48 + n) else Char.ofNat (87 + n)

def hexWord (w : Nat) : List Char :=
  [hexDigit ((w >>> 28) &&& 15), hexDigit ((w >>> 24) &&& 15),
   hexDigit ((w >>> 20) &&& 15), hexDigit ((w >>> 16) &&& 15),
   hexDigit ((w >>> 12) &&& 15), hexDigit ((w >>> 8) &&& 15),
   hexDigit ((w >>> 4) &&& 15), hexDigit (w &&& 15)]

/-- Lower-case hex digest, as produced by `digest("hex")`. -/
def sha256hex (msg : List Nat) : String :=
  String.mk ((sha256Words msg).flatMap hexWord)

/-- UTF-8 encoding of one character. -/
def utf8Encode (c : Char) : List Nat :=
  let n := c.toNat
  if n < 0x80 then [n]
  else if n < 0x800 then [0xc0 ||| (n >>> 6), 0x80 ||| (n &&& 0x3f)]
  else if n < 0x10000 then
    [0xe0 ||| (n >>> 12), 0x80 ||| ((n >>> 6) &&& 0x3f), 0x80 ||| (n &&& 0x3f)]
  else
    [0xf0 ||| (n >>> 18), 0x80 ||| ((n >>> 12) &&& 0x3f),
     0x80 ||| ((n >>> 6) &&& 0x3f), 0x80 ||| (n &&& 0x3f)]

def utf8Bytes (s : String) : List Nat := s.data.flatMap utf8Encode

/-- Fidelity check against the FIPS 180-4 test vector for "abc". -/
example : sha256hex (utf8Bytes "abc") =
    "ba7816bf8f01cfea414140de5dae2223b00361a396177a9cb410ff61f20015ad" := by decide

/-- Fidelity check against the standard test vector for the empty string. -/
example : sha256hex (utf8Bytes "") =
    "e3b0c44298fc1c149afbf4c8996fb92427ae41e4649b934ca495991b7852b855" := by decide

/-! ### JSON serialization (`JSON.stringify` over the options shape)

The source hashes `JSON.stringify(data)` where `data` is an
`ElizaCharacterOptions` object; keys appear in interface order.
Escaping follows ECMA-262 QuoteJSONString. -/

def escapeJsonChar (c : Char) : List Char :=
  let n := c.toNat
  if n = 34 then ['\\', '"']
  else if n = 92 then ['\\', '\\']
  else if n = 8 then ['\\', 'b']
  else if n = 12 then ['\\', 'f']
  else if n = 10 then ['\\', 'n']
  else if n = 13 then ['\\', 'r']
  else if n = 9 then ['\\', 't']
  else if n < 32 then ['\\', 'u', '0', '0', hexDigit (n >>> 4), hexDigit (n &&& 15)]
  else [c]

def jsonString (s : String) : String :=
  "\"" ++ String.mk (s.data.flatMap escapeJsonChar) ++ "\""

def jsonArray (xs : List String) : String :=
  "[" ++ String.intercalate "," xs ++ "]"

def lbrace : String := "\x7b"

def rbrace : String := "\x7d"

/-! ### Data model (from `src/index.ts` together with the
`validateCharacter` schema, which fixes the transcript entry shape). -/

structure MessageExample where
  user : String
  content : String
  deriving DecidableEq

structure FunctionParameter where
  name : String
  description : String
  type : String
  deriving DecidableEq

structure CharacterFunction where
  name : String
  description : String
  similes : List String
  examples : List (List MessageExample)
  parameters : List FunctionParameter
  deriving DecidableEq

structure ElizaCharacterOptions where
  name : String
  bio : List String
  lore : List String
  knowledge : List String
  topics : List String
  adjectives : List String
  style : List String
  messageExamples : List (List MessageExample)
  functions : List CharacterFunction
  deriving DecidableEq

def serializeMessageExample (m : MessageExample) : String :=
  lbrace ++ "\"user\":" ++ jsonString m.user ++ ",\"content\":" ++ jsonString m.content ++ rbrace

def serializeParameter (p : FunctionParameter) : String :=
  lbrace ++ "\"name\":" ++ jsonString p.name ++ ",\"description\":" ++ jsonString p.description
    ++ ",\"type\":" ++ jsonString p.type ++ rbrace

def serializeFunction (f : CharacterFunction) : String :=
  lbrace ++ "\"name\":" ++ jsonString f.name
    ++ ",\"description\":" ++ jsonString f.description
    ++ ",\"similes\":" ++ jsonArray (f.similes.map jsonString)
    ++ ",\"examples\":" ++ jsonArray (f.examples.map (fun e => jsonArray (e.map serializeMessageExample)))
    ++ ",\"parameters\":" ++ jsonArray (f.parameters.map serializeParameter) ++ rbrace

def serializeOptions (o : ElizaCharacterOptions) : String :=
  lbrace ++ "\"name\":" ++ jsonString o.name
    ++ ",\"bio\":" ++ jsonArray (o.bio.map jsonString)
    ++ ",\"lore\":" ++ jsonArray (o.lore.map jsonString)
    ++ ",\"knowledge\":" ++ jsonArray (o.knowledge.map jsonString)
    ++ ",\"topics\":" ++ jsonArray (o.topics.map jsonString)
    ++ ",\"adjectives\":" ++ jsonArray (o.adjectives.map jsonString)
    ++ ",\"style\":" ++ jsonArray (o.style.map jsonString)
    ++ ",\"messageExamples\":" ++ jsonArray (o.messageExamples.map (fun e => jsonArray (e.map serializeMessageExample)))
    ++ ",\"functions\":" ++ jsonArray (o.functions.map serializeFunction) ++ rbrace

/-- `generatePersonalityHash` from the source:
sha256 hex digest of `JSON.stringify(data)`. -/
def generatePersonalityHash (data : ElizaCharacterOptions) : String :=
  sha256hex (utf8Bytes (serializeOptions data))

/-- A minimal character definition used in concrete instances. -/
def optsA : ElizaCharacterOptions :=
  { name := "a", bio := [], lore := [], knowledge := [], topics := [],
    adjectives := [], style := [], messageExamples := [], functions := [] }

def optsB : ElizaCharacterOptions :=
  { name := "b", bio := [], lore := [], knowledge := [], topics := [],
    adjectives := [], style := [], messageExamples := [], functions := [] }

def hashA : String := "f7c1eb4401ca695c4d11de4a43f8ce0dc4cf1d3fd60b7d756d5ae8b7fb47665c"

def hashB : String := "9e090ffe617c739de8d8dfe5d83849b3c57b7f676d33020a08a5013c12c5c8cf"

/-- Fidelity check: the embedded hash of `optsA` equals the digest Node
computes for the identical JSON payload. -/
theorem hashA_eq : generatePersonalityHash optsA = hashA := by decide

/-- Fidelity check for `optsB`, likewise cross-checked against Node. -/
theorem hashB_eq : generatePersonalityHash optsB = hashB := by decide

/-! ### Framework and adapter state

`ElizaFramework` class fields become `FrameworkState`.  The opaque
`AgentRuntime` handle is a reference carrying its id and `agentId`;
calls to `runtime.stop()` are recorded in `stoppedRuntimes`.
The storage adapter is the external collaborator of spec section 6,
modelled by its contract: `createRoom` allocates a fresh room id,
`getRoom` resolves a secret token or a persistence token to the room id
of a live room, participants form a per-room set. -/

structure ElizaCharacter where
  name : String
  hash : String
  options : ElizaCharacterOptions
  deriving DecidableEq

/-- The `ElizaCharacter` constructor:
`super(name, generatePersonalityHash(options))`. -/
def mkElizaCharacter (name : String) (options : ElizaCharacterOptions) : ElizaCharacter :=
  { name := name, hash := generatePersonalityHash options, options := options }

structure User where
  id : String
  name : String
  deriving DecidableEq

structure ConversationData where
  busy : Option Bool := none
  finished : Option Bool := none
  deriving DecidableEq

structure ElizaConversation where
  id : Nat
  secret : String
  character : ElizaCharacter
  users : List User
  persistenceToken : Option String
  data : ConversationData := ⟨none, none⟩
  deriving DecidableEq

structure AgentRuntimeRef where
  id : Nat
  agentId : String
  deriving DecidableEq

structure RuntimeCharacterMap where
  runtime : AgentRuntimeRef
  character : ElizaCharacter
  deriving DecidableEq

structure RoomData where
  users : List User
  runtimeCharacterMap : RuntimeCharacterMap
  deriving DecidableEq

structure FrameworkState where
  characters : List ElizaCharacter
  runtimeCharacterMaps : List (String × RuntimeCharacterMap)
  roomMaps : List (String × RoomData)
  conversationCount : Nat
  conversationIdMap : List (Nat × String)
  stoppedRuntimes : List Nat
  nextRuntimeId : Nat
  deriving DecidableEq

structure AdapterState where
  nextRoom : Nat
  liveRooms : List String
  tokenMap : List (String × String)
  participants : List (String × String)
  deriving DecidableEq

inductive Effect where
  | createdRoom (room : String)
  | addParticipant (userId room : String)
  | removeParticipant (userId room : String)
  | ensureConnection (userId room displayName : String)
  | memoryCreated (text : String)
  | generateDialogue
  | processActions
  | evaluateStep
  deriving DecidableEq

/-- Opaque fresh room identifier for the `n`-th created room. -/
def roomName (n : Nat) : String := String.mk ('r' :: List.replicate n '0')

/-- Opaque agent id of the `n`-th created runtime. -/
def agentIdFor (n : Nat) : String := String.mk ('a' :: List.replicate n '0')

def adapterGetRoom (a : AdapterState) (t : String) : Option String :=
  if a.liveRooms.contains t then some t
  else
    match mapGet? a.tokenMap t with
    | some r => if a.liveRooms.contains r then some r else none
    | none => none

def adapterCreateRoom (a : AdapterState) (persistenceToken : Option String) :
    String × AdapterState :=
  let roomId := roomName a.nextRoom
  (roomId,
   { a with
      nextRoom := a.nextRoom + 1,
      liveRooms := a.liveRooms ++ [roomId],
      tokenMap :=
        match persistenceToken with
        | some t => mapSet a.tokenMap t roomId
        | none => a.tokenMap })

def adapterAddParticipant (a : AdapterState) (u r : String) : AdapterState :=
  if a.participants.contains (u, r) then a
  else { a with participants := a.participants ++ [(u, r)] }

def adapterRemoveParticipant (a : AdapterState) (u r : String) : AdapterState :=
  { a with participants := a.participants.filter (fun p => !(p.1 == u && p.2 == r)) }

def adapterParticipantsForRoom (a : AdapterState) (r : String) : List String :=
  (a.participants.filter (fun p => p.2 == r)).map (fun p => p.1)

def adapterRemoveRoom (a : AdapterState) (r : String) : AdapterState :=
  { a with liveRooms := a.liveRooms.filter (fun x => !(x == r)) }

/-! ### Registry operations -/

/-- `getOrCreateCharacter`: returns a fresh handle if a RuntimeBinding
already exists for the hash, otherwise constructs a runtime and
registers it under the hash. -/
def getOrCreateCharacter (s : FrameworkState) (character : ElizaCharacterOptions) :
    ElizaCharacter × FrameworkState :=
  if mapHas s.runtimeCharacterMaps (generatePersonalityHash character) then
    (mkElizaCharacter character.name character, s)
  else
    let runtime : AgentRuntimeRef := ⟨s.nextRuntimeId, agentIdFor s.nextRuntimeId⟩
    let entry : RuntimeCharacterMap := ⟨runtime, mkElizaCharacter character.name character⟩
    (mkElizaCharacter character.name character,
     { s with
        runtimeCharacterMaps :=
          mapSet s.runtimeCharacterMaps (generatePersonalityHash character) entry,
        nextRuntimeId := s.nextRuntimeId + 1 })

def containsCharacter (s : FrameworkState) (character : ElizaCharacter) : Bool :=
  mapHas s.runtimeCharacterMaps (generatePersonalityHash character.options)

/-- `loadCharacter`: throws when the hash has no RuntimeBinding, else
appends to the loaded-character list (runtime initialization is an
external effect). -/
def loadCharacter (s : FrameworkState) (character : ElizaCharacter) :
    Except String FrameworkState :=
  if !(containsCharacter s character) then Except.error "Character not found"
  else Except.ok { s with characters := s.characters ++ [character] }

/-! ### Conversation operations -/

/-- The removal phase of `setConversationUsers`: storage participants
absent from `users` are removed. -/
def removeAbsentLoop (users : List User) (room : String) :
    List String → AdapterState → AdapterState × List Effect
  | [], a => (a, [])
  | p :: rest, a =>
    if (users.find? (fun u => u.id == p)).isSome then
      removeAbsentLoop users room rest a
    else
      let a1 := adapterRemoveParticipant a p room
      let (a2, effs) := removeAbsentLoop users room rest a1
      (a2, Effect.removeParticipant p room :: effs)

/-- The addition phase of `setConversationUsers`: users missing from the
participant snapshot get a runtime connection and a participant row. -/
def addNewLoop (participants : List String) (room : String) :
    List User → AdapterState → AdapterState × List Effect
  | [], a => (a, [])
  | u :: rest, a =>
    if participants.contains u.id then addNewLoop participants room rest a
    else
      let a1 := adapterAddParticipant a u.id room
      let (a2, effs) := addNewLoop participants room rest a1
      (a2, Effect.ensureConnection u.id room u.name :: Effect.addParticipant u.id room :: effs)

/-- `setConversationUsers`.  Note the early `return` when no RoomBinding
is tracked: the TypeScript returns `undefined` exactly as the success
path does. -/
def setConversationUsers (s : FrameworkState) (a : AdapterState)
    (conversation : ElizaConversation) (users : List User) :
    Except String Unit × FrameworkState × AdapterState × List Effect :=
  match mapGet? s.roomMaps conversation.secret with
  | none => (Except.ok (), s, a, [])
  | some roomData =>
    let roomData1 := { roomData with users := users }
    let s1 := { s with roomMaps := mapSet s.roomMaps conversation.secret roomData1 }
    let participants := adapterParticipantsForRoom a conversation.secret
    let (a1, effs1) := removeAbsentLoop users conversation.secret participants a
    let (a2, effs2) := addNewLoop participants conversation.secret users a1
    (Except.ok (), s1, a2, effs1 ++ effs2)

/-- `setConversationCharacter`.  The stop-scan compares every rooms
binding hash against the hash of the `character` argument (the new
character), and stops the current binding of the conversation when no
match is found. -/
def setConversationCharacter (s : FrameworkState)
    (conversation : ElizaConversation) (character : ElizaCharacter) :
    Except String Unit × FrameworkState :=
  match mapGet? s.roomMaps conversation.secret with
  | none => (Except.ok (), s)
  | some roomData =>
    match mapGet? s.runtimeCharacterMaps (generatePersonalityHash character.options) with
    | none => (Except.error "Character not found when setting conversation character", s)
    | some charMap =>
      let shouldStop :=
        !(s.roomMaps.any (fun e => e.2.runtimeCharacterMap.character.hash == character.hash))
      let s1 :=
        if shouldStop then
          { s with stoppedRuntimes := s.stoppedRuntimes ++ [roomData.runtimeCharacterMap.runtime.id] }
        else s
      (Except.ok (),
       { s1 with roomMaps := mapSet s1.roomMaps conversation.secret
                   { roomData with runtimeCharacterMap := charMap } })

/-- `createConversation`: returns `none` (an empty result) when the
character has no RuntimeBinding. -/
def createConversation (s : FrameworkState) (a : AdapterState)
    (character : ElizaCharacter) (users : List User) (persistenceToken : Option String) :
    Option ElizaConversation × FrameworkState × AdapterState × List Effect :=
  match mapGet? s.runtimeCharacterMaps (generatePersonalityHash character.options) with
  | none => (none, s, a, [])
  | some agent =>
    let (roomId, a1) := adapterCreateRoom a persistenceToken
    let a2 := adapterAddParticipant a1 agent.runtime.agentId roomId
    let count := s.conversationCount + 1
    let s1 := { s with
                  conversationCount := count,
                  conversationIdMap := mapSet s.conversationIdMap count roomId }
    let conversation : ElizaConversation :=
      { id := count, secret := roomId, character := character, users := [],
        persistenceToken := persistenceToken }
    let s2 := { s1 with roomMaps := mapSet s1.roomMaps roomId ⟨[], agent⟩ }
    let (_, s3, a3, effs) := setConversationUsers s2 a2 conversation users
    (some conversation, s3, a3,
     Effect.createdRoom roomId :: Effect.addParticipant agent.runtime.agentId roomId :: effs)

/-- `finishConversation`: releases the storage room only; in-memory
maps are untouched. -/
def finishConversation (a : AdapterState) (conversation : ElizaConversation) : AdapterState :=
  adapterRemoveRoom a conversation.secret

def truthyNum (x : Option Nat) : Bool :=
  match x with
  | some n => n != 0
  | none => false

def truthyStr (x : Option String) : Bool :=
  match x with
  | some s => s != ""
  | none => false

/-- `Array.from(map.entries()).find(([, value]) => value === secret)?.[0]`:
first entry in insertion order whose value is the secret. -/
def reverseFind (l : List (Nat × String)) (secret : String) : Option Nat :=
  (l.find? (fun e => e.2 == secret)).map (fun e => e.1)

/-- `getConversationBy`, with JavaScript truthiness checks preserved
(`if (id)`, `if (!secret)`, `if (!room)`, `if (!mapKey)`). -/
def getConversationBy (s : FrameworkState) (a : AdapterState)
    (id? : Option Nat) (secret? : Option String) (persistenceToken? : Option String) :
    Option ElizaConversation :=
  if truthyNum id? then
    match mapGet? s.conversationIdMap (id?.getD 0) with
    | none => none
    | some secret =>
      if secret == "" then none
      else
        match adapterGetRoom a secret with
        | none => none
        | some room =>
          if room == "" then none
          else
            match mapGet? s.roomMaps secret with
            | none => none
            | some roomData =>
              some { id := id?.getD 0, secret := secret,
                     character := roomData.runtimeCharacterMap.character,
                     users := roomData.users, persistenceToken := persistenceToken? }
  else if truthyStr secret? then
    let secret := secret?.getD ""
    match adapterGetRoom a secret with
    | none => none
    | some room =>
      if room == "" then none
      else
        match mapGet? s.roomMaps secret with
        | none => none
        | some roomData =>
          match reverseFind s.conversationIdMap secret with
          | none => none
          | some mapKey =>
            if mapKey == 0 then none
            else
              some { id := mapKey, secret := secret,
                     character := roomData.runtimeCharacterMap.character,
                     users := roomData.users, persistenceToken := persistenceToken? }
  else if truthyStr persistenceToken? then
    let pt := persistenceToken?.getD ""
    match adapterGetRoom a pt with
    | none => none
    | some room =>
      if room == "" then none
      else
        match mapGet? s.roomMaps room with
        | none => none
        | some roomData =>
          match reverseFind s.conversationIdMap room with
          | none => none
          | some mapKey =>
            if mapKey == 0 then none
            else
              some { id := mapKey, secret := room,
                     character := roomData.runtimeCharacterMap.character,
                     users := roomData.users, persistenceToken := persistenceToken? }
  else none

/-! ### Message pipeline

The generative backend and the action-processing step are external
collaborators; their outcomes enter as oracle arguments
(`genResponse` for `generateMessageResponse`, `processedMessage` for
the content captured by the `processActions` collector). -/

structure Content where
  text : Option String
  action : Option String
  data : Option (List (String × String))
  deriving DecidableEq

structure InstalledAction where
  name : String
  description : String
  similes : List String
  parameters : List FunctionParameter
  suppressInitialMessage : Bool
  deriving DecidableEq

/-- The actions `sendToConversation` installs on the runtime: one per
declared character function, each with `suppressInitialMessage: false`. -/
def installedActions (functions : List CharacterFunction) : List InstalledAction :=
  functions.map (fun func =>
    { name := func.name, description := func.description, similes := func.similes,
      parameters := func.parameters, suppressInitialMessage := false })

/-- JavaScript truthiness of `r.text` on a response content. -/
def truthyText (r : Content) : Bool :=
  match r.text with
  | some t => t != ""
  | none => false

def truthyAction (r : Content) : Bool :=
  match r.action with
  | some t => t != ""
  | none => false

def truthyData (r : Content) : Bool := r.data.isSome

structure CallEntry where
  name : Option String
  message : Option String
  parameters : Option (List (String × String))
  deriving DecidableEq

inductive SendResult where
  | err (status : Nat) (message : String)
  | ok (content : Option String) (calls : List CallEntry)
  deriving DecidableEq

/-- Step 11 of the pipeline: drop the dialogue response when the
selected action suppresses the initial message. -/
def respContentOf (processedMessage : Option Content) (response : Content)
    (shouldSuppress : Bool) : List Content :=
  if !shouldSuppress then
    match processedMessage with
    | some m => [response, m]
    | none => [response]
  else
    match processedMessage with
    | some m => [m]
    | none => []

/-- `action?.suppressInitialMessage` under `if (!...)`: an absent action
behaves like `false`. -/
def suppressFlag (actions : List InstalledAction) (response : Content) : Bool :=
  ((actions.find? (fun a => response.action == some a.name)).map
    (fun a => a.suppressInitialMessage)).getD false

def assembleResult (respContent : List Content) : SendResult :=
  SendResult.ok ((respContent.find? truthyText).bind (fun r => r.text))
    ((respContent.filter (fun r => truthyAction r && truthyData r)).map
      (fun r => { name := r.action, message := r.text, parameters := r.data }))

/-- `sendToConversation`.  The two 404 paths precede all side effects;
the 500 path occurs after the inbound memory write but before the
response memory write, `processActions` and `evaluate`. -/
def sendToConversation (s : FrameworkState)
    (genResponse : Option Content) (processedMessage : Option Content)
    (conversation : ElizaConversation) (message : String) (playerId : String) :
    SendResult × List Effect :=
  match mapGet? s.roomMaps conversation.secret with
  | none => (SendResult.err 404 "Room not found", [])
  | some roomData =>
    match (roomData.users.find? (fun u => u.id == playerId)).map (fun u => u.name) with
    | none => (SendResult.err 404 "User not found", [])
    | some username =>
      if username == "" then (SendResult.err 404 "User not found", [])
      else
        let actions := installedActions roomData.runtimeCharacterMap.character.options.functions
        match genResponse with
        | none =>
          (SendResult.err 500 "Failed to generate message",
           [Effect.memoryCreated message, Effect.generateDialogue])
        | some response =>
          let respContent := respContentOf processedMessage response (suppressFlag actions response)
          (assembleResult respContent,
           [Effect.memoryCreated message, Effect.generateDialogue,
            Effect.memoryCreated (response.text.getD ""),
            Effect.processActions, Effect.evaluateStep])

/-! ### Shared concrete fixtures -/

def charA : ElizaCharacter := mkElizaCharacter "a" optsA

def charB : ElizaCharacter := mkElizaCharacter "b" optsB

theorem charA_eq : charA = ⟨"a", hashA, optsA⟩ := by
  show ElizaCharacter.mk "a" (generatePersonalityHash optsA) optsA = _
  rw [hashA_eq]

theorem charB_eq : charB = ⟨"b", hashB, optsB⟩ := by
  show ElizaCharacter.mk "b" (generatePersonalityHash optsB) optsB = _
  rw [hashB_eq]

def bindA : RuntimeCharacterMap := ⟨⟨0, agentIdFor 0⟩, charA⟩

def bindB : RuntimeCharacterMap := ⟨⟨1, agentIdFor 1⟩, charB⟩

/-- A state with one registered RuntimeBinding (for character A). -/
def regState : FrameworkState :=
  { characters := [], runtimeCharacterMaps := [(charA.hash, bindA)], roomMaps := [],
    conversationCount := 0, conversationIdMap := [], stoppedRuntimes := [], nextRuntimeId := 1 }

theorem mapHas_mapSet_self {α β : Type} [BEq α] [LawfulBEq α]
    (l : List (α × β)) (a : α) (b : β) : mapHas (mapSet l a b) a = true := by
  simp [mapHas, mapGet?_mapSet_self]

/-- C6: when a RuntimeBinding already exists for the hash of a
definition, `getOrCreateCharacter` creates no runtime and no registry
entry and returns a fresh handle wrapping the definition; calling it
twice never creates two RuntimeBindings (the second call leaves the
state of the first call unchanged); and the registry keeps at most one
RuntimeBinding per hash. -/
theorem getOrCreateCharacter_idempotent (s1 s2 : FrameworkState)
    (d1 d2 : ElizaCharacterOptions) (k : String)
    (h1 : mapHas s1.runtimeCharacterMaps (generatePersonalityHash d1) = true)
    (h2 : countKey s2.runtimeCharacterMaps k ≤ 1) :
    getOrCreateCharacter s1 d1 = (mkElizaCharacter d1.name d1, s1) ∧
    (getOrCreateCharacter (getOrCreateCharacter s2 d2).2 d2).2 = (getOrCreateCharacter s2 d2).2 ∧
    countKey (getOrCreateCharacter s2 d2).2.runtimeCharacterMaps k ≤ 1 := by
  refine ⟨by simp [getOrCreateCharacter, h1], ?_, ?_⟩
  · by_cases hh : mapHas s2.runtimeCharacterMaps (generatePersonalityHash d2) = true
    · simp [getOrCreateCharacter, hh]
    · have hf : mapHas s2.runtimeCharacterMaps (generatePersonalityHash d2) = false := by
        simpa using hh
      simp [getOrCreateCharacter, hf, mapHas_mapSet_self]
  · by_cases hh : mapHas s2.runtimeCharacterMaps (generatePersonalityHash d2) = true
    · simpa [getOrCreateCharacter, hh] using h2
    · have hf : mapHas s2.runtimeCharacterMaps (generatePersonalityHash d2) = false := by
        simpa using hh
      simp only [getOrCreateCharacter, hf, Bool.false_eq_true, if_false]
      exact countKey_mapSet_le _ _ _ _ h2

/-- Witness for C6 at a concrete registry state: character A is
registered; the hypotheses hold and the theorem applies. -/
theorem getOrCreateCharacter_idempotent_witness :
    (mapHas regState.runtimeCharacterMaps (generatePersonalityHash optsA) = true ∧
     countKey regState.runtimeCharacterMaps hashA ≤ 1) ∧
    getOrCreateCharacter regState optsA = (mkElizaCharacter optsA.name optsA, regState) ∧
    (getOrCreateCharacter (getOrCreateCharacter regState optsB).2 optsB).2 =
      (getOrCreateCharacter regState optsB).2 ∧
    countKey (getOrCreateCharacter regState optsB).2.runtimeCharacterMaps hashA ≤ 1 := by
  have hh1 : mapHas regState.runtimeCharacterMaps (generatePersonalityHash optsA) = true := by
    rw [hashA_eq]
    simp [regState, charA_eq, mapHas, mapGet?]
  have hh2 : countKey regState.runtimeCharacterMaps hashA ≤ 1 := by
    simp [regState, charA_eq, countKey]
  exact ⟨⟨hh1, hh2⟩,
    getOrCreateCharacter_idempotent regState regState optsA optsB hashA hh1 hh2⟩

/-! ### Participant reconciliation (claims C2 and C5) -/

theorem mem_participantsOf {a : AdapterState} {r x : String} :
    x ∈ adapterParticipantsForRoom a r ↔
      ∃ p, p ∈ a.participants ∧ p.1 = x ∧ p.2 = r := by
  simp only [adapterParticipantsForRoom, List.mem_map, List.mem_filter]
  constructor
  · rintro ⟨p, ⟨hp, hr⟩, rfl⟩
    exact ⟨p, hp, rfl, by simpa using hr⟩
  · rintro ⟨p, hp, rfl, hr⟩
    exact ⟨p, ⟨hp, by simpa using hr⟩, rfl⟩

theorem mem_participants_remove (a : AdapterState) (u r x : String) :
    x ∈ adapterParticipantsForRoom (adapterRemoveParticipant a u r) r ↔
      (x ∈ adapterParticipantsForRoom a r ∧ x ≠ u) := by
  simp only [mem_participantsOf, adapterRemoveParticipant, List.mem_filter]
  constructor
  · rintro ⟨⟨p1, p2⟩, ⟨hp, hcond⟩, rfl, rfl⟩
    refine ⟨⟨(p1, p2), hp, rfl, rfl⟩, ?_⟩
    intro hxu
    subst hxu
    simp at hcond
  · rintro ⟨⟨⟨p1, p2⟩, hp, rfl, rfl⟩, hxu⟩
    exact ⟨(p1, p2), ⟨hp, by simp [hxu]⟩, rfl, rfl⟩

theorem mem_participants_add (a : AdapterState) (u r x : String) :
    x ∈ adapterParticipantsForRoom (adapterAddParticipant a u r) r ↔
      (x ∈ adapterParticipantsForRoom a r ∨ x = u) := by
  by_cases hc : a.participants.contains (u, r)
  · have hmem : (u, r) ∈ a.participants := by simpa using hc
    simp only [adapterAddParticipant, hc, if_true]
    constructor
    · exact Or.inl
    · rintro (h | rfl)
      · exact h
      · exact mem_participantsOf.mpr ⟨(x, r), hmem, rfl, rfl⟩
  · simp only [adapterAddParticipant, hc, if_false, Bool.false_eq_true]
    simp only [mem_participantsOf, List.mem_append, List.mem_singleton]
    constructor
    · rintro ⟨p, hp | hpe, hx, hr⟩
      · exact Or.inl ⟨p, hp, hx, hr⟩
      · subst hpe
        exact Or.inr hx.symm
    · rintro (⟨p, hp, rfl, rfl⟩ | rfl)
      · exact ⟨p, Or.inl hp, rfl, rfl⟩
      · exact ⟨(x, r), Or.inr rfl, rfl, rfl⟩

theorem find?_user_isSome (users : List User) (p : String) :
    (users.find? (fun u => u.id == p)).isSome = true ↔
      p ∈ users.map (fun u => u.id) := by
  rw [List.find?_isSome]
  simp only [List.mem_map, beq_iff_eq]

theorem mem_removeAbsentLoop (users : List User) (room : String) (ps : List String)
    (a : AdapterState) (x : String) :
    x ∈ adapterParticipantsForRoom (removeAbsentLoop users room ps a).1 room ↔
      (x ∈ adapterParticipantsForRoom a room ∧
        (x ∈ users.map (fun u => u.id) ∨ x ∉ ps)) := by
  induction ps generalizing a with
  | nil => simp [removeAbsentLoop]
  | cons p rest ih =>
    by_cases hp : (users.find? (fun u => u.id == p)).isSome = true
    · have hpid : p ∈ users.map (fun u => u.id) := (find?_user_isSome users p).mp hp
      simp only [removeAbsentLoop, hp, if_true, ih]
      constructor
      · rintro ⟨hmem, hor⟩
        refine ⟨hmem, ?_⟩
        rcases hor with h | h
        · exact Or.inl h
        · by_cases hxp : x = p
          · exact Or.inl (hxp ▸ hpid)
          · exact Or.inr (by simp [hxp, h])
      · rintro ⟨hmem, hor⟩
        refine ⟨hmem, ?_⟩
        rcases hor with h | h
        · exact Or.inl h
        · exact Or.inr (fun hx => h (List.mem_cons_of_mem _ hx))
    · have hpb : (users.find? (fun u => u.id == p)).isSome = false := by
        simpa using hp
      have hpid : p ∉ users.map (fun u => u.id) := by
        intro hmem
        rw [← find?_user_isSome users p] at hmem
        simp [hpb] at hmem
      simp only [removeAbsentLoop, hpb, Bool.false_eq_true, if_false]
      cases hrec : removeAbsentLoop users room rest (adapterRemoveParticipant a p room) with
      | mk a2 effs =>
        have := ih (adapterRemoveParticipant a p room)
        rw [hrec] at this
        simp only [this, mem_participants_remove]
        constructor
        · rintro ⟨⟨hmem, hxp⟩, hor⟩
          refine ⟨hmem, ?_⟩
          rcases hor with h | h
          · exact Or.inl h
          · exact Or.inr (by simp [hxp, h])
        · rintro ⟨hmem, hor⟩
          rcases hor with h | h
          · refine ⟨⟨hmem, ?_⟩, Or.inl h⟩
            intro hxp
            subst hxp
            exact hpid h
          · have hxp : x ≠ p := by
              intro hxp
              subst hxp
              exact h (List.mem_cons_self _ _)
            exact ⟨⟨hmem, hxp⟩, Or.inr (fun hx => h (List.mem_cons_of_mem _ hx))⟩

theorem mem_addNewLoop (participants : List String) (room : String) (us : List User)
    (a : AdapterState) (x : String) :
    x ∈ adapterParticipantsForRoom (addNewLoop participants room us a).1 room ↔
      (x ∈ adapterParticipantsForRoom a room ∨
        ∃ u ∈ us, u.id = x ∧ x ∉ participants) := by
  induction us generalizing a with
  | nil => simp [addNewLoop]
  | cons u rest ih =>
    by_cases hc : participants.contains u.id
    · have hmem : u.id ∈ participants := by simpa using hc
      simp only [addNewLoop, hc, if_true, ih]
      constructor
      · rintro (h | ⟨v, hv, rfl, hnot⟩)
        · exact Or.inl h
        · exact Or.inr ⟨v, List.mem_cons_of_mem _ hv, rfl, hnot⟩
      · rintro (h | ⟨v, hv, rfl, hnot⟩)
        · exact Or.inl h
        · rcases List.mem_cons.mp hv with rfl | hv'
          · exact absurd hmem hnot
          · exact Or.inr ⟨v, hv', rfl, hnot⟩
    · have hnmem : u.id ∉ participants := by
        intro hmem
        exact hc (by simpa using hmem)
      simp only [addNewLoop, hc, Bool.false_eq_true, if_false]
      cases hrec : addNewLoop participants room rest (adapterAddParticipant a u.id room) with
      | mk a2 effs =>
        have := ih (adapterAddParticipant a u.id room)
        rw [hrec] at this
        simp only [this, mem_participants_add]
        constructor
        · rintro ((h | rfl) | ⟨v, hv, rfl, hnot⟩)
          · exact Or.inl h
          · exact Or.inr ⟨u, List.mem_cons_self _ _, rfl, hnmem⟩
          · exact Or.inr ⟨v, List.mem_cons_of_mem _ hv, rfl, hnot⟩
        · rintro (h | ⟨v, hv, rfl, hnot⟩)
          · exact Or.inl (Or.inl h)
          · rcases List.mem_cons.mp hv with rfl | hv'
            · exact Or.inl (Or.inr rfl)
            · exact Or.inr ⟨v, hv', rfl, hnot⟩

theorem removeAbsentLoop_noop (users : List User) (room : String) (ps : List String)
    (a : AdapterState)
    (h : ∀ p ∈ ps, (users.find? (fun u => u.id == p)).isSome = true) :
    removeAbsentLoop users room ps a = (a, []) := by
  induction ps generalizing a with
  | nil => rfl
  | cons p rest ih =>
    have hp := h p (List.mem_cons_self _ _)
    simp [removeAbsentLoop, hp, ih a (fun q hq => h q (List.mem_cons_of_mem _ hq))]

theorem addNewLoop_noop (participants : List String) (room : String) (us : List User)
    (a : AdapterState)
    (h : ∀ u ∈ us, participants.contains u.id = true) :
    addNewLoop participants room us a = (a, []) := by
  induction us generalizing a with
  | nil => rfl
  | cons u rest ih =>
    have hu := h u (List.mem_cons_self _ _)
    have hu2 : u.id ∈ participants := by simpa using hu
    simp [addNewLoop, hu, hu2, ih a (fun v hv => h v (List.mem_cons_of_mem _ hv))]

/-- Characterization of `setConversationUsers` on a tracked room. -/
theorem setConversationUsers_eq (s : FrameworkState) (a : AdapterState)
    (conversation : ElizaConversation) (users : List User) (rd : RoomData)
    (h : mapGet? s.roomMaps conversation.secret = some rd) :
    setConversationUsers s a conversation users =
      (Except.ok (),
       { s with roomMaps := mapSet s.roomMaps conversation.secret { rd with users := users } },
       (addNewLoop (adapterParticipantsForRoom a conversation.secret) conversation.secret users
          (removeAbsentLoop users conversation.secret
            (adapterParticipantsForRoom a conversation.secret) a).1).1,
       (removeAbsentLoop users conversation.secret
          (adapterParticipantsForRoom a conversation.secret) a).2 ++
       (addNewLoop (adapterParticipantsForRoom a conversation.secret) conversation.secret users
          (removeAbsentLoop users conversation.secret
            (adapterParticipantsForRoom a conversation.secret) a).1).2) := by
  cases hrem : removeAbsentLoop users conversation.secret
      (adapterParticipantsForRoom a conversation.secret) a with
  | mk a1 effs1 =>
    cases hadd : addNewLoop (adapterParticipantsForRoom a conversation.secret)
        conversation.secret users a1 with
    | mk a2 effs2 =>
      simp [setConversationUsers, h, hrem, hadd]

/-- The participant set produced by one reconciliation pass equals the
id set of `users`. -/
theorem reconcile_membership (a : AdapterState) (room : String) (users : List User) (x : String) :
    x ∈ adapterParticipantsForRoom
          (addNewLoop (adapterParticipantsForRoom a room) room users
            (removeAbsentLoop users room (adapterParticipantsForRoom a room) a).1).1 room ↔
      x ∈ users.map (fun u => u.id) := by
  rw [mem_addNewLoop, mem_removeAbsentLoop]
  constructor
  · rintro (⟨hmem, hor⟩ | ⟨u, hu, rfl, hnot⟩)
    · rcases hor with hid | hnot
      · exact hid
      · exact absurd hmem hnot
    · exact List.mem_map.mpr ⟨u, hu, rfl⟩
  · intro hid
    rcases List.mem_map.mp hid with ⟨u, hu, rfl⟩
    by_cases hps : u.id ∈ adapterParticipantsForRoom a room
    · exact Or.inl ⟨hps, Or.inl hid⟩
    · exact Or.inr ⟨u, hu, rfl, hps⟩

/-- C2: after `setConversationUsers(c, U)` on a conversation with a
tracked RoomBinding, the adapter participant set for the room equals
exactly the id set of `U`, whatever it was before; and a second call
with the same `U` performs no participant additions, removals or
connections (its effect list is empty). -/
theorem setConversationUsers_reconciles (s : FrameworkState) (a : AdapterState)
    (conversation : ElizaConversation) (users : List User) (rd : RoomData)
    (h : mapGet? s.roomMaps conversation.secret = some rd) :
    sameSet
      (adapterParticipantsForRoom
        (setConversationUsers s a conversation users).2.2.1 conversation.secret)
      (users.map (fun u => u.id)) = true ∧
    (setConversationUsers (setConversationUsers s a conversation users).2.1
      (setConversationUsers s a conversation users).2.2.1 conversation users).2.2.2 = [] := by
  have hchar := setConversationUsers_eq s a conversation users rd h
  have hmem1 : ∀ x,
      x ∈ adapterParticipantsForRoom
            (setConversationUsers s a conversation users).2.2.1 conversation.secret ↔
        x ∈ users.map (fun u => u.id) := by
    intro x
    rw [hchar]
    exact reconcile_membership a conversation.secret users x
  constructor
  · rw [sameSet_iff]
    exact hmem1
  · have h2 : mapGet? (setConversationUsers s a conversation users).2.1.roomMaps
        conversation.secret = some { rd with users := users } := by
      rw [hchar]
      exact mapGet?_mapSet_self _ _ _
    have hchar2 := setConversationUsers_eq (setConversationUsers s a conversation users).2.1
      (setConversationUsers s a conversation users).2.2.1 conversation users
      { rd with users := users } h2
    rw [hchar2]
    have hps2 : ∀ p ∈ adapterParticipantsForRoom
        (setConversationUsers s a conversation users).2.2.1 conversation.secret,
        (users.find? (fun u => u.id == p)).isSome = true := by
      intro p hp
      rw [find?_user_isSome]
      exact (hmem1 p).mp hp
    rw [removeAbsentLoop_noop _ _ _ _ hps2]
    have hcont : ∀ u ∈ users,
        (adapterParticipantsForRoom
          (setConversationUsers s a conversation users).2.2.1 conversation.secret).contains
            u.id = true := by
      intro u hu
      have : u.id ∈ adapterParticipantsForRoom
          (setConversationUsers s a conversation users).2.2.1 conversation.secret :=
        (hmem1 u.id).mpr (List.mem_map.mpr ⟨u, hu, rfl⟩)
      simpa using this
    rw [addNewLoop_noop _ _ _ _ hcont]
    simp

/-- A room state whose bound character carries an opaque hash: the
hashing machinery is irrelevant to membership reconciliation. -/
def chLit : ElizaCharacter := ⟨"c", "h", optsA⟩

def bindLit : RuntimeCharacterMap := ⟨⟨0, "agent"⟩, chLit⟩

def rdEx : RoomData := ⟨[], bindLit⟩

def stRoom : FrameworkState :=
  { characters := [], runtimeCharacterMaps := [], roomMaps := [("rm", rdEx)],
    conversationCount := 1, conversationIdMap := [(1, "rm")],
    stoppedRuntimes := [], nextRuntimeId := 1 }

def adEx : AdapterState :=
  { nextRoom := 1, liveRooms := ["rm"], tokenMap := [],
    participants := [("stale", "rm")] }

def convEx : ElizaConversation :=
  { id := 1, secret := "rm", character := chLit, users := [], persistenceToken := none }

def uBob : User := ⟨"bob", "Bob"⟩

/-- Witness for C2: a concrete room whose storage roster holds a stale
participant; the hypotheses hold and the theorem applies. -/
theorem setConversationUsers_reconciles_witness :
    mapGet? stRoom.roomMaps convEx.secret = some rdEx ∧
    (sameSet
      (adapterParticipantsForRoom
        (setConversationUsers stRoom adEx convEx [uBob]).2.2.1 convEx.secret)
      ([uBob].map (fun u => u.id)) = true ∧
    (setConversationUsers (setConversationUsers stRoom adEx convEx [uBob]).2.1
      (setConversationUsers stRoom adEx convEx [uBob]).2.2.1 convEx [uBob]).2.2.2 = []) := by
  have h : mapGet? stRoom.roomMaps convEx.secret = some rdEx := by decide
  exact ⟨h, setConversationUsers_reconciles stRoom adEx convEx [uBob] rdEx h⟩

/-! ### Claim C5: the agent participant is reconciled away -/

theorem participantsOf_createRoom (a : AdapterState) (pt : Option String) (r : String) :
    adapterParticipantsForRoom (adapterCreateRoom a pt).2 r =
      adapterParticipantsForRoom a r := by
  simp [adapterCreateRoom, adapterParticipantsForRoom]

theorem participantsOf_add_fresh (a : AdapterState) (u r : String)
    (hfresh : adapterParticipantsForRoom a r = []) :
    adapterParticipantsForRoom (adapterAddParticipant a u r) r = [u] := by
  have hfilter : a.participants.filter (fun p => p.2 == r) = [] := by
    unfold adapterParticipantsForRoom at hfresh
    exact List.map_eq_nil_iff.mp hfresh
  have hc : a.participants.contains (u, r) = false := by
    rw [Bool.eq_false_iff]
    intro hct
    have hm : (u, r) ∈ a.participants := by simpa using hct
    have hmf : (u, r) ∈ a.participants.filter (fun p => p.2 == r) :=
      List.mem_filter.mpr ⟨hm, by simp⟩
    rw [hfilter] at hmf
    simp at hmf
  unfold adapterAddParticipant
  rw [hc]
  simp [adapterParticipantsForRoom, List.filter_append, hfilter]

/-- Characterization of `createConversation` on a registered character. -/
theorem createConversation_eq (s : FrameworkState) (a : AdapterState)
    (character : ElizaCharacter) (users : List User) (persistenceToken : Option String)
    (agent : RuntimeCharacterMap)
    (hagent : mapGet? s.runtimeCharacterMaps (generatePersonalityHash character.options) =
      some agent) :
    createConversation s a character users persistenceToken =
      (some { id := s.conversationCount + 1, secret := roomName a.nextRoom,
              character := character, users := [], persistenceToken := persistenceToken },
       (setConversationUsers
          { s with
              conversationCount := s.conversationCount + 1,
              conversationIdMap := mapSet s.conversationIdMap (s.conversationCount + 1) (roomName a.nextRoom),
              roomMaps := mapSet s.roomMaps (roomName a.nextRoom) ⟨[], agent⟩ }
          (adapterAddParticipant (adapterCreateRoom a persistenceToken).2
            agent.runtime.agentId (roomName a.nextRoom))
          { id := s.conversationCount + 1, secret := roomName a.nextRoom,
            character := character, users := [], persistenceToken := persistenceToken }
          users).2.1,
       (setConversationUsers
          { s with
              conversationCount := s.conversationCount + 1,
              conversationIdMap := mapSet s.conversationIdMap (s.conversationCount + 1) (roomName a.nextRoom),
              roomMaps := mapSet s.roomMaps (roomName a.nextRoom) ⟨[], agent⟩ }
          (adapterAddParticipant (adapterCreateRoom a persistenceToken).2
            agent.runtime.agentId (roomName a.nextRoom))
          { id := s.conversationCount + 1, secret := roomName a.nextRoom,
            character := character, users := [], persistenceToken := persistenceToken }
          users).2.2.1,
       Effect.createdRoom (roomName a.nextRoom) ::
       Effect.addParticipant agent.runtime.agentId (roomName a.nextRoom) ::
       (setConversationUsers
          { s with
              conversationCount := s.conversationCount + 1,
              conversationIdMap := mapSet s.conversationIdMap (s.conversationCount + 1) (roomName a.nextRoom),
              roomMaps := mapSet s.roomMaps (roomName a.nextRoom) ⟨[], agent⟩ }
          (adapterAddParticipant (adapterCreateRoom a persistenceToken).2
            agent.runtime.agentId (roomName a.nextRoom))
          { id := s.conversationCount + 1, secret := roomName a.nextRoom,
            character := character, users := [], persistenceToken := persistenceToken }
          users).2.2.2) := by
  cases hsu : setConversationUsers
      { s with
          conversationCount := s.conversationCount + 1,
          conversationIdMap := mapSet s.conversationIdMap (s.conversationCount + 1) (roomName a.nextRoom),
          roomMaps := mapSet s.roomMaps (roomName a.nextRoom) ⟨[], agent⟩ }
      (adapterAddParticipant (adapterCreateRoom a persistenceToken).2
        agent.runtime.agentId (roomName a.nextRoom))
      { id := s.conversationCount + 1, secret := roomName a.nextRoom,
        character := character, users := [], persistenceToken := persistenceToken }
      users with
  | mk res rest =>
    simp only [createConversation, hagent, adapterCreateRoom] at hsu ⊢
    rw [hsu]

/-- C5: after a successful `createConversation`, when the agent id is
not among the user ids, the reconcile removes the agent participant
again: the final participant set of the fresh room is exactly the id
set of `users` and excludes the agent. -/
theorem createConversation_excludes_agent (s : FrameworkState) (a : AdapterState)
    (character : ElizaCharacter) (users : List User) (persistenceToken : Option String)
    (agent : RuntimeCharacterMap)
    (hagent : mapGet? s.runtimeCharacterMaps (generatePersonalityHash character.options) =
      some agent)
    (hfresh : adapterParticipantsForRoom a (roomName a.nextRoom) = [])
    (hnotin : agent.runtime.agentId ∉ users.map (fun u => u.id)) :
    (createConversation s a character users persistenceToken).1 =
      some { id := s.conversationCount + 1, secret := roomName a.nextRoom,
             character := character, users := [], persistenceToken := persistenceToken } ∧
    sameSet
      (adapterParticipantsForRoom
        (createConversation s a character users persistenceToken).2.2.1
        (roomName a.nextRoom))
      (users.map (fun u => u.id)) = true ∧
    (adapterParticipantsForRoom
        (createConversation s a character users persistenceToken).2.2.1
        (roomName a.nextRoom)).contains agent.runtime.agentId = false ∧
    Effect.removeParticipant agent.runtime.agentId (roomName a.nextRoom) ∈
      (createConversation s a character users persistenceToken).2.2.2 := by
  have hchar := createConversation_eq s a character users persistenceToken agent hagent
  have hfreshroom : adapterParticipantsForRoom
      (adapterAddParticipant (adapterCreateRoom a persistenceToken).2
        agent.runtime.agentId (roomName a.nextRoom)) (roomName a.nextRoom) =
      [agent.runtime.agentId] := by
    rw [participantsOf_add_fresh]
    rw [participantsOf_createRoom]
    exact hfresh
  have hroom2 : mapGet?
      ({ s with
          conversationCount := s.conversationCount + 1,
          conversationIdMap := mapSet s.conversationIdMap (s.conversationCount + 1) (roomName a.nextRoom),
          roomMaps := mapSet s.roomMaps (roomName a.nextRoom) ⟨[], agent⟩ } :
        FrameworkState).roomMaps (roomName a.nextRoom) = some ⟨[], agent⟩ :=
    mapGet?_mapSet_self _ _ _
  have hsu := setConversationUsers_eq
    { s with
        conversationCount := s.conversationCount + 1,
        conversationIdMap := mapSet s.conversationIdMap (s.conversationCount + 1) (roomName a.nextRoom),
        roomMaps := mapSet s.roomMaps (roomName a.nextRoom) ⟨[], agent⟩ }
    (adapterAddParticipant (adapterCreateRoom a persistenceToken).2
      agent.runtime.agentId (roomName a.nextRoom))
    { id := s.conversationCount + 1, secret := roomName a.nextRoom,
      character := character, users := [], persistenceToken := persistenceToken }
    users ⟨[], agent⟩ hroom2
  have hmemfinal : ∀ x,
      x ∈ adapterParticipantsForRoom
            (createConversation s a character users persistenceToken).2.2.1
            (roomName a.nextRoom) ↔
        x ∈ users.map (fun u => u.id) := by
    intro x
    rw [hchar]
    show x ∈ adapterParticipantsForRoom
        (setConversationUsers _ _ _ users).2.2.1 (roomName a.nextRoom) ↔ _
    rw [hsu]
    exact reconcile_membership _ _ users x
  refine ⟨by rw [hchar], ?_, ?_, ?_⟩
  · rw [sameSet_iff]
    exact hmemfinal
  · rw [Bool.eq_false_iff]
    intro hct
    have : agent.runtime.agentId ∈ adapterParticipantsForRoom
        (createConversation s a character users persistenceToken).2.2.1
        (roomName a.nextRoom) := by simpa using hct
    exact hnotin ((hmemfinal _).mp this)
  · have hfind : (users.find? (fun u => u.id == agent.runtime.agentId)).isSome = false := by
      rw [Bool.eq_false_iff]
      intro hx
      exact hnotin ((find?_user_isSome users _).mp hx)
    rw [hchar]
    show Effect.removeParticipant agent.runtime.agentId (roomName a.nextRoom) ∈
      Effect.createdRoom (roomName a.nextRoom) ::
      Effect.addParticipant agent.runtime.agentId (roomName a.nextRoom) ::
      (setConversationUsers _ _ _ users).2.2.2
    rw [hsu]
    show _ ∈ _ :: _ ::
      ((removeAbsentLoop users (roomName a.nextRoom) _ _).2 ++ (addNewLoop _ _ _ _).2)
    rw [hfreshroom]
    simp [removeAbsentLoop, hfind]

def adFresh : AdapterState := ⟨0, [], [], []⟩

/-- Witness for C5: registry holds character A; one user Bob; the agent
id differs from Bob, so the reconcile removes the agent again. -/
theorem createConversation_excludes_agent_witness :
    (mapGet? regState.runtimeCharacterMaps (generatePersonalityHash charA.options) =
        some bindA ∧
     adapterParticipantsForRoom adFresh (roomName adFresh.nextRoom) = [] ∧
     bindA.runtime.agentId ∉ [uBob].map (fun u => u.id)) ∧
    (createConversation regState adFresh charA [uBob] none).1 =
      some { id := regState.conversationCount + 1, secret := roomName adFresh.nextRoom,
             character := charA, users := [], persistenceToken := none } ∧
    sameSet
      (adapterParticipantsForRoom
        (createConversation regState adFresh charA [uBob] none).2.2.1
        (roomName adFresh.nextRoom))
      ([uBob].map (fun u => u.id)) = true ∧
    (adapterParticipantsForRoom
        (createConversation regState adFresh charA [uBob] none).2.2.1
        (roomName adFresh.nextRoom)).contains bindA.runtime.agentId = false ∧
    Effect.removeParticipant bindA.runtime.agentId (roomName adFresh.nextRoom) ∈
      (createConversation regState adFresh charA [uBob] none).2.2.2 := by
  have hagent : mapGet? regState.runtimeCharacterMaps (generatePersonalityHash charA.options) =
      some bindA := by
    simp [regState, charA_eq, hashA_eq, mapGet?]
  have hfresh : adapterParticipantsForRoom adFresh (roomName adFresh.nextRoom) = [] := by decide
  have hnotin : bindA.runtime.agentId ∉ [uBob].map (fun u => u.id) := by decide
  exact ⟨⟨hagent, hfresh, hnotin⟩,
    createConversation_excludes_agent regState adFresh charA [uBob] none bindA
      hagent hfresh hnotin⟩

/-! ### Claim C3: the three selectors agree -/

/-- C3: for a live conversation, lookups by ordinal id, by secret and by
persistence token all return a conversation carrying the same
(id, secret) pair. -/
theorem getConversationBy_selector_agreement (s : FrameworkState) (a : AdapterState)
    (i : Nat) (sec pt : String) (rd : RoomData)
    (hi : i ≠ 0) (hsec : sec ≠ "") (hpt : pt ≠ "")
    (hmap : mapGet? s.conversationIdMap i = some sec)
    (hrev : reverseFind s.conversationIdMap sec = some i)
    (hlive : sec ∈ a.liveRooms)
    (hptlive : pt ∉ a.liveRooms)
    (hptmap : mapGet? a.tokenMap pt = some sec)
    (hroom : mapGet? s.roomMaps sec = some rd) :
    ((getConversationBy s a (some i) none none).map (fun c => (c.id, c.secret))) =
      some (i, sec) ∧
    ((getConversationBy s a none (some sec) none).map (fun c => (c.id, c.secret))) =
      some (i, sec) ∧
    ((getConversationBy s a none none (some pt)).map (fun c => (c.id, c.secret))) =
      some (i, sec) := by
  have hlivec : a.liveRooms.contains sec = true := by simpa using hlive
  have hptlivec : a.liveRooms.contains pt = false := by
    rw [Bool.eq_false_iff]
    intro hc
    exact hptlive (by simpa using hc)
  refine ⟨?_, ?_, ?_⟩
  · simp [getConversationBy, truthyNum, adapterGetRoom, hmap, hlivec, hlive, hroom, hi, hsec]
  · simp [getConversationBy, truthyNum, truthyStr, adapterGetRoom, hlivec, hlive, hroom, hrev,
      hi, hsec]
  · simp [getConversationBy, truthyNum, truthyStr, adapterGetRoom, hptlivec, hptlive, hptmap,
      hlivec, hlive, hroom, hrev, hi, hsec, hpt]

def adPT : AdapterState :=
  { nextRoom := 1, liveRooms := ["rm"], tokenMap := [("tok", "rm")], participants := [] }

/-- Witness for C3 at a concrete live conversation. -/
theorem getConversationBy_selector_agreement_witness :
    (1 ≠ 0 ∧ "rm" ≠ "" ∧ "tok" ≠ "" ∧
     mapGet? stRoom.conversationIdMap 1 = some "rm" ∧
     reverseFind stRoom.conversationIdMap "rm" = some 1 ∧
     "rm" ∈ adPT.liveRooms ∧ "tok" ∉ adPT.liveRooms ∧
     mapGet? adPT.tokenMap "tok" = some "rm" ∧
     mapGet? stRoom.roomMaps "rm" = some rdEx) ∧
    ((getConversationBy stRoom adPT (some 1) none none).map (fun c => (c.id, c.secret))) =
      some (1, "rm") ∧
    ((getConversationBy stRoom adPT none (some "rm") none).map (fun c => (c.id, c.secret))) =
      some (1, "rm") ∧
    ((getConversationBy stRoom adPT none none (some "tok")).map (fun c => (c.id, c.secret))) =
      some (1, "rm") := by
  refine ⟨⟨by decide, by decide, by decide, by decide, by decide, by decide, by decide,
    by decide, by decide⟩, ?_⟩
  exact getConversationBy_selector_agreement stRoom adPT 1 "rm" "tok" rdEx
    (by decide) (by decide) (by decide) (by decide) (by decide) (by decide) (by decide)
    (by decide) (by decide)

/-! ### Claim C7: finished conversations are unresolvable -/

theorem not_mem_filter_out (l : List String) (r : String) :
    r ∉ l.filter (fun x => !(x == r)) := by
  intro h
  rcases List.mem_filter.mp h with ⟨_, hcond⟩
  simp at hcond

theorem not_mem_filter_of_not_mem (l : List String) (q : String → Bool) (x : String)
    (h : x ∉ l) : x ∉ l.filter q :=
  fun hx => h (List.mem_filter.mp hx).1

/-- C7: after `finishConversation`, lookup by id, by secret and by a
persistence token resolving to the released room all return absent. -/
theorem finishConversation_unresolvable (s : FrameworkState) (a : AdapterState)
    (conversation : ElizaConversation) (i : Nat) (pt : String)
    (hid : mapGet? s.conversationIdMap i = some conversation.secret)
    (hsecpt : mapGet? a.tokenMap conversation.secret = none)
    (hpt : mapGet? a.tokenMap pt = some conversation.secret)
    (hptnr : pt ∉ a.liveRooms) :
    getConversationBy s (finishConversation a conversation) (some i) none none = none ∧
    getConversationBy s (finishConversation a conversation)
      none (some conversation.secret) none = none ∧
    getConversationBy s (finishConversation a conversation) none none (some pt) = none := by
  have hsecgone : conversation.secret ∉
      (finishConversation a conversation).liveRooms := by
    simp only [finishConversation, adapterRemoveRoom]
    exact not_mem_filter_out _ _
  have hsecgonec : (finishConversation a conversation).liveRooms.contains
      conversation.secret = false := by
    rw [Bool.eq_false_iff]
    intro hc
    exact hsecgone (by simpa using hc)
  have hptgone : pt ∉ (finishConversation a conversation).liveRooms := by
    simp only [finishConversation, adapterRemoveRoom]
    exact not_mem_filter_of_not_mem _ _ _ hptnr
  have hptgonec : (finishConversation a conversation).liveRooms.contains pt = false := by
    rw [Bool.eq_false_iff]
    intro hc
    exact hptgone (by simpa using hc)
  have htok : (finishConversation a conversation).tokenMap = a.tokenMap := rfl
  refine ⟨?_, ?_, ?_⟩
  · by_cases hi : i = 0
    · simp [getConversationBy, truthyNum, truthyStr, hi]
    · by_cases hse : conversation.secret = ""
      · simp [getConversationBy, truthyNum, truthyStr, hi, hid, hse]
      · simp [getConversationBy, truthyNum, truthyStr, adapterGetRoom, hi, hid, hse,
          hsecgonec, hsecgone, htok, hsecpt]
  · by_cases hse : conversation.secret = ""
    · simp [getConversationBy, truthyNum, truthyStr, hse]
    · simp [getConversationBy, truthyNum, truthyStr, adapterGetRoom, hse,
        hsecgonec, hsecgone, htok, hsecpt]
  · by_cases hpe : pt = ""
    · simp [getConversationBy, truthyNum, truthyStr, hpe]
    · simp [getConversationBy, truthyNum, truthyStr, adapterGetRoom, hpe,
        hptgonec, hptgone, htok, hpt, hsecgonec, hsecgone]

/-- Witness for C7 at a concrete released conversation. -/
theorem finishConversation_unresolvable_witness :
    (mapGet? stRoom.conversationIdMap 1 = some convEx.secret ∧
     mapGet? adPT.tokenMap convEx.secret = none ∧
     mapGet? adPT.tokenMap "tok" = some convEx.secret ∧
     "tok" ∉ adPT.liveRooms) ∧
    getConversationBy stRoom (finishConversation adPT convEx) (some 1) none none = none ∧
    getConversationBy stRoom (finishConversation adPT convEx)
      none (some convEx.secret) none = none ∧
    getConversationBy stRoom (finishConversation adPT convEx) none none (some "tok") = none := by
  refine ⟨⟨by decide, by decide, by decide, by decide⟩, ?_⟩
  exact finishConversation_unresolvable stRoom adPT convEx 1 "tok"
    (by decide) (by decide) (by decide) (by decide)

/-! ### Claim C8: pipeline failure values are terminal -/

/-- C8: `sendToConversation` returns a 404 error value with no effects
when no RoomBinding is tracked, a 404 error value with no effects when
the sender is not in the roster, and a 500 error value when the backend
yields no dialogue response; in the 500 case only the inbound memory
write and the generation attempt have happened, with no later step. -/
theorem sendToConversation_failures
    (s1 : FrameworkState) (g1 p1 : Option Content) (c1 : ElizaConversation) (m1 pid1 : String)
    (s2 : FrameworkState) (g2 p2 : Option Content) (c2 : ElizaConversation) (m2 pid2 : String)
    (rd2 : RoomData)
    (s3 : FrameworkState) (p3 : Option Content) (c3 : ElizaConversation) (m3 pid3 : String)
    (rd3 : RoomData) (u3 : User)
    (h1 : mapGet? s1.roomMaps c1.secret = none)
    (h2room : mapGet? s2.roomMaps c2.secret = some rd2)
    (h2user : rd2.users.find? (fun u => u.id == pid2) = none)
    (h3room : mapGet? s3.roomMaps c3.secret = some rd3)
    (h3user : rd3.users.find? (fun u => u.id == pid3) = some u3)
    (h3name : u3.name ≠ "") :
    sendToConversation s1 g1 p1 c1 m1 pid1 = (SendResult.err 404 "Room not found", []) ∧
    sendToConversation s2 g2 p2 c2 m2 pid2 = (SendResult.err 404 "User not found", []) ∧
    sendToConversation s3 none p3 c3 m3 pid3 =
      (SendResult.err 500 "Failed to generate message",
       [Effect.memoryCreated m3, Effect.generateDialogue]) := by
  refine ⟨?_, ?_, ?_⟩
  · simp [sendToConversation, h1]
  · simp [sendToConversation, h2room, h2user]
  · simp [sendToConversation, h3room, h3user, h3name]

def fnExample : CharacterFunction :=
  { name := "setMood", description := "d", similes := ["s"],
    examples := [[⟨"u", "hi"⟩]], parameters := [⟨"mood", "m", "string"⟩] }

def optsF : ElizaCharacterOptions := { optsA with name := "f", functions := [fnExample] }

def chF : ElizaCharacter := ⟨"f", "hf", optsF⟩

def bindF : RuntimeCharacterMap := ⟨⟨0, "agent"⟩, chF⟩

def rdBob : RoomData := ⟨[uBob], bindF⟩

def stBob : FrameworkState :=
  { characters := [], runtimeCharacterMaps := [], roomMaps := [("rm", rdBob)],
    conversationCount := 1, conversationIdMap := [(1, "rm")],
    stoppedRuntimes := [], nextRuntimeId := 1 }

def stNoRoom : FrameworkState :=
  { characters := [], runtimeCharacterMaps := [], roomMaps := [],
    conversationCount := 1, conversationIdMap := [(1, "rm")],
    stoppedRuntimes := [], nextRuntimeId := 1 }

/-- Witness for C8 at three concrete failing configurations. -/
theorem sendToConversation_failures_witness :
    (mapGet? stNoRoom.roomMaps convEx.secret = none ∧
     mapGet? stRoom.roomMaps convEx.secret = some rdEx ∧
     rdEx.users.find? (fun u => u.id == "bob") = none ∧
     mapGet? stBob.roomMaps convEx.secret = some rdBob ∧
     rdBob.users.find? (fun u => u.id == "bob") = some uBob ∧
     uBob.name ≠ "") ∧
    sendToConversation stNoRoom none none convEx "hi" "bob" =
      (SendResult.err 404 "Room not found", []) ∧
    sendToConversation stRoom none none convEx "hi" "bob" =
      (SendResult.err 404 "User not found", []) ∧
    sendToConversation stBob none none convEx "hi" "bob" =
      (SendResult.err 500 "Failed to generate message",
       [Effect.memoryCreated "hi", Effect.generateDialogue]) := by
  refine ⟨⟨by decide, by decide, by decide, by decide, by decide, by decide⟩, ?_⟩
  exact sendToConversation_failures stNoRoom none none convEx "hi" "bob"
    stRoom none none convEx "hi" "bob" rdEx
    stBob none convEx "hi" "bob" rdBob uBob
    (by decide) (by decide) (by decide) (by decide) (by decide) (by decide)

/-! ### Claim C10: the suppress-initial-message branch is never taken -/

theorem installedActions_suppress_false (functions : List CharacterFunction) :
    ∀ x ∈ installedActions functions, x.suppressInitialMessage = false := by
  intro x hx
  rcases List.mem_map.mp hx with ⟨f, _, rfl⟩
  rfl

/-- C10: every installed action carries `suppressInitialMessage: false`,
so on a completing pipeline the suppress branch is never taken and the
dialogue response is a member of the assembled outward content. -/
theorem sendToConversation_dialogue_included (s : FrameworkState)
    (response : Content) (processedMessage : Option Content)
    (conversation : ElizaConversation) (message playerId : String)
    (rd : RoomData) (u : User)
    (hroom : mapGet? s.roomMaps conversation.secret = some rd)
    (huser : rd.users.find? (fun uu => uu.id == playerId) = some u)
    (hname : u.name ≠ "") :
    (installedActions rd.runtimeCharacterMap.character.options.functions).all
      (fun a => !a.suppressInitialMessage) = true ∧
    suppressFlag (installedActions rd.runtimeCharacterMap.character.options.functions)
      response = false ∧
    response ∈ respContentOf processedMessage response
      (suppressFlag (installedActions rd.runtimeCharacterMap.character.options.functions)
        response) ∧
    sendToConversation s (some response) processedMessage conversation message playerId =
      (assembleResult (respContentOf processedMessage response
        (suppressFlag (installedActions rd.runtimeCharacterMap.character.options.functions)
          response)),
       [Effect.memoryCreated message, Effect.generateDialogue,
        Effect.memoryCreated (response.text.getD ""),
        Effect.processActions, Effect.evaluateStep]) := by
  have hsupp : suppressFlag
      (installedActions rd.runtimeCharacterMap.character.options.functions) response =
      false := by
    unfold suppressFlag
    cases hf : (installedActions rd.runtimeCharacterMap.character.options.functions).find?
        (fun a => response.action == some a.name) with
    | none => rfl
    | some act =>
      have hmem := List.mem_of_find?_eq_some hf
      simp [installedActions_suppress_false _ _ hmem]
  refine ⟨?_, hsupp, ?_, ?_⟩
  · rw [List.all_eq_true]
    intro x hx
    simp [installedActions_suppress_false _ _ hx]
  · rw [hsupp]
    cases processedMessage <;> simp [respContentOf]
  · simp [sendToConversation, hroom, huser, hname]

def respEx : Content := ⟨some "hello", some "setMood", some [("mood", "happy")]⟩

def procEx : Content := ⟨some "done", some "setMood", some [("mood", "happy")]⟩

/-- Witness for C10 at a concrete completing pipeline. -/
theorem sendToConversation_dialogue_included_witness :
    (mapGet? stBob.roomMaps convEx.secret = some rdBob ∧
     rdBob.users.find? (fun uu => uu.id == "bob") = some uBob ∧
     uBob.name ≠ "") ∧
    (installedActions rdBob.runtimeCharacterMap.character.options.functions).all
      (fun a => !a.suppressInitialMessage) = true ∧
    suppressFlag (installedActions rdBob.runtimeCharacterMap.character.options.functions)
      respEx = false ∧
    respEx ∈ respContentOf (some procEx) respEx
      (suppressFlag (installedActions rdBob.runtimeCharacterMap.character.options.functions)
        respEx) ∧
    sendToConversation stBob (some respEx) (some procEx) convEx "hi" "bob" =
      (assembleResult (respContentOf (some procEx) respEx
        (suppressFlag (installedActions rdBob.runtimeCharacterMap.character.options.functions)
          respEx)),
       [Effect.memoryCreated "hi", Effect.generateDialogue,
        Effect.memoryCreated (respEx.text.getD ""),
        Effect.processActions, Effect.evaluateStep]) := by
  refine ⟨⟨by decide, by decide, by decide⟩, ?_⟩
  exact sendToConversation_dialogue_included stBob respEx (some procEx) convEx "hi" "bob"
    rdBob uBob (by decide) (by decide) (by decide)

/-! ### Claim C4: failure reporting -/

instance {e a : Type} [DecidableEq e] [DecidableEq a] : DecidableEq (Except e a)
  | Except.error x, Except.error y =>
    if h : x = y then isTrue (by rw [h]) else isFalse (by intro hc; cases hc; exact h rfl)
  | Except.error _, Except.ok _ => isFalse (by intro h; cases h)
  | Except.ok _, Except.error _ => isFalse (by intro h; cases h)
  | Except.ok x, Except.ok y =>
    if h : x = y then isTrue (by rw [h]) else isFalse (by intro hc; cases hc; exact h rfl)

/-- C4 counterexample: `setConversationUsers` on a conversation with no
tracked RoomBinding completes with the same unit result a successful
call produces, mutating nothing and performing no operation — the
failure is silently swallowed, not reported. -/
theorem setConversationUsers_silently_swallows :
    (setConversationUsers stNoRoom adFresh convEx [uBob]).1 = Except.ok () ∧
    (setConversationUsers stNoRoom adFresh convEx [uBob]).2.1 = stNoRoom ∧
    (setConversationUsers stNoRoom adFresh convEx [uBob]).2.2.1 = adFresh ∧
    (setConversationUsers stNoRoom adFresh convEx [uBob]).2.2.2 = [] ∧
    (setConversationUsers stRoom adEx convEx [uBob]).1 = Except.ok () := by decide

/-- C4 (amended): every failure path of the embedded operations throws
or returns an explicit failure value distinct from success — except
`setConversationUsers` and `setConversationCharacter` called on a
conversation with no tracked RoomBinding, which return normally with
the same unit result as a successful call while performing no work. -/
theorem failure_reporting
    (s1 : FrameworkState) (a1 : AdapterState) (c1 : ElizaConversation) (us1 : List User)
    (s2 : FrameworkState) (c2 : ElizaConversation) (ch2 : ElizaCharacter)
    (s3 : FrameworkState) (c3 : ElizaConversation) (ch3 : ElizaCharacter) (rd3 : RoomData)
    (s4 : FrameworkState) (a4 : AdapterState) (ch4 : ElizaCharacter) (us4 : List User)
    (pt4 : Option String)
    (s5 : FrameworkState) (ch5 : ElizaCharacter)
    (s6 : FrameworkState) (g6 p6 : Option Content) (c6 : ElizaConversation) (m6 pid6 : String)
    (h1 : mapGet? s1.roomMaps c1.secret = none)
    (h2 : mapGet? s2.roomMaps c2.secret = none)
    (h3room : mapGet? s3.roomMaps c3.secret = some rd3)
    (h3char : mapGet? s3.runtimeCharacterMaps (generatePersonalityHash ch3.options) = none)
    (h4 : mapGet? s4.runtimeCharacterMaps (generatePersonalityHash ch4.options) = none)
    (h5 : containsCharacter s5 ch5 = false)
    (h6 : mapGet? s6.roomMaps c6.secret = none) :
    setConversationUsers s1 a1 c1 us1 = (Except.ok (), s1, a1, []) ∧
    setConversationCharacter s2 c2 ch2 = (Except.ok (), s2) ∧
    (setConversationCharacter s3 c3 ch3).1 =
      Except.error "Character not found when setting conversation character" ∧
    (createConversation s4 a4 ch4 us4 pt4).1 = none ∧
    loadCharacter s5 ch5 = Except.error "Character not found" ∧
    sendToConversation s6 g6 p6 c6 m6 pid6 = (SendResult.err 404 "Room not found", []) := by
  refine ⟨?_, ?_, ?_, ?_, ?_, ?_⟩
  · simp [setConversationUsers, h1]
  · simp [setConversationCharacter, h2]
  · simp [setConversationCharacter, h3room, h3char]
  · simp [createConversation, h4]
  · simp [loadCharacter, h5]
  · simp [sendToConversation, h6]

/-- Witness for the amended C4 at concrete inputs. -/
theorem failure_reporting_witness :
    (mapGet? stNoRoom.roomMaps convEx.secret = none ∧
     mapGet? stRoom.roomMaps convEx.secret = some rdEx ∧
     mapGet? stRoom.runtimeCharacterMaps (generatePersonalityHash chLit.options) = none ∧
     containsCharacter stNoRoom chLit = false) ∧
    setConversationUsers stNoRoom adFresh convEx [uBob] =
      (Except.ok (), stNoRoom, adFresh, []) ∧
    setConversationCharacter stNoRoom convEx chLit = (Except.ok (), stNoRoom) ∧
    (setConversationCharacter stRoom convEx chLit).1 =
      Except.error "Character not found when setting conversation character" ∧
    (createConversation stNoRoom adFresh chLit [uBob] none).1 = none ∧
    loadCharacter stNoRoom chLit = Except.error "Character not found" ∧
    sendToConversation stNoRoom none none convEx "hi" "bob" =
      (SendResult.err 404 "Room not found", []) := by
  have ha : mapGet? stNoRoom.roomMaps convEx.secret = none := by decide
  have hb : mapGet? stRoom.roomMaps convEx.secret = some rdEx := by decide
  have hc : mapGet? stRoom.runtimeCharacterMaps (generatePersonalityHash chLit.options) =
      none := by decide
  have hd : containsCharacter stNoRoom chLit = false := by decide
  have he : mapGet? stNoRoom.runtimeCharacterMaps (generatePersonalityHash chLit.options) =
      none := by decide
  exact ⟨⟨ha, hb, hc, hd⟩,
    (failure_reporting stNoRoom adFresh convEx [uBob]
      stNoRoom convEx chLit
      stRoom convEx chLit rdEx
      stNoRoom adFresh chLit [uBob] none
      stNoRoom chLit
      stNoRoom none none convEx "hi" "bob"
      ha ha hb hc he hd ha).1,
    (failure_reporting stNoRoom adFresh convEx [uBob]
      stNoRoom convEx chLit
      stRoom convEx chLit rdEx
      stNoRoom adFresh chLit [uBob] none
      stNoRoom chLit
      stNoRoom none none convEx "hi" "bob"
      ha ha hb hc he hd ha).2⟩

/-! ### Claim C1: the stop-scan in `setConversationCharacter` -/

def stTwoRooms : FrameworkState :=
  { characters := [],
    runtimeCharacterMaps := [(charA.hash, bindA), (charB.hash, bindB)],
    roomMaps := [("r1", ⟨[], bindA⟩), ("r2", ⟨[], bindA⟩)],
    conversationCount := 2, conversationIdMap := [(1, "r1"), (2, "r2")],
    stoppedRuntimes := [], nextRuntimeId := 2 }

def convR1 : ElizaConversation :=
  { id := 1, secret := "r1", character := charA, users := [], persistenceToken := none }

/-- C1 (code bug): rooms r1 and r2 are both bound to runtime 0
(character A); switching r1 to registered-but-unused character B stops
runtime 0 even though r2 still references it, because the stop-scan
compares against the hash of the NEW character instead of the hash of
the current binding. -/
theorem setConversationCharacter_stops_referenced_runtime :
    (setConversationCharacter stTwoRooms convR1 charB).2.stoppedRuntimes = [0] ∧
    (mapGet? (setConversationCharacter stTwoRooms convR1 charB).2.roomMaps "r2").map
      (fun rdx => rdx.runtimeCharacterMap.runtime.id) = some 0 ∧
    (mapGet? (setConversationCharacter stTwoRooms convR1 charB).2.roomMaps "r1").map
      (fun rdx => rdx.runtimeCharacterMap.character.hash) = some charB.hash := by
  simp only [stTwoRooms, convR1, bindA, bindB, charA_eq, charB_eq]
  simp only [setConversationCharacter, hashB_eq]
  decide

/-! ### Claim C9: purity versus injectivity of the personality hash -/

theorem add32_lt (a b : Nat) : add32 a b < w32mod :=
  Nat.mod_lt _ (by decide)

theorem mem_zipWith_add32 {x : Nat} :
    ∀ {l1 l2 : List Nat}, x ∈ List.zipWith add32 l1 l2 → x < w32mod := by
  intro l1
  induction l1 with
  | nil => intro l2 h; simp at h
  | cons a rest ih =>
    intro l2 h
    cases l2 with
    | nil => simp at h
    | cons b rest2 =>
      simp only [List.zipWith_cons_cons] at h
      rcases List.mem_cons.mp h with rfl | h2
      · exact add32_lt a b
      · exact ih h2

theorem sha256Compress_length (hs chunk : List Nat) (h : hs.length = 8) :
    (sha256Compress hs chunk).length = 8 := by
  simp [sha256Compress, List.length_zipWith, h]

theorem sha256Compress_lt (hs chunk : List Nat) :
    ∀ x ∈ sha256Compress hs chunk, x < w32mod := by
  intro x hx
  simp only [sha256Compress] at hx
  exact mem_zipWith_add32 hx

theorem foldl_compress_spec (bs : List (List Nat)) (H : List Nat)
    (hlen : H.length = 8) (hlt : ∀ x ∈ H, x < w32mod) :
    (bs.foldl sha256Compress H).length = 8 ∧
    (∀ x ∈ bs.foldl sha256Compress H, x < w32mod) := by
  induction bs generalizing H with
  | nil => exact ⟨hlen, hlt⟩
  | cons c rest ih =>
    simp only [List.foldl_cons]
    exact ih (sha256Compress H c) (sha256Compress_length H c hlen) (sha256Compress_lt H c)

theorem sha256Words_length (msg : List Nat) : (sha256Words msg).length = 8 := by
  unfold sha256Words
  exact (foldl_compress_spec _ sha256H0 (by decide) (by decide)).1

theorem sha256Words_lt (msg : List Nat) : ∀ x ∈ sha256Words msg, x < w32mod := by
  unfold sha256Words
  exact (foldl_compress_spec _ sha256H0 (by decide) (by decide)).2

/-- The digest state of a definition, packed into a finite type. -/
def digestWordFun (o : ElizaCharacterOptions) : Fin 8 → Fin w32mod :=
  fun i =>
    ⟨(sha256Words (utf8Bytes (serializeOptions o))).getD i.val 0 % w32mod,
     Nat.mod_lt _ (by decide)⟩

theorem words_eq_of_digest_eq (o1 o2 : ElizaCharacterOptions)
    (h : digestWordFun o1 = digestWordFun o2) :
    sha256Words (utf8Bytes (serializeOptions o1)) =
      sha256Words (utf8Bytes (serializeOptions o2)) := by
  apply List.ext_getElem
  · rw [sha256Words_length, sha256Words_length]
  · intro i h1 h2
    have hi : i < 8 := by
      rw [sha256Words_length] at h1
      exact h1
    have hfe := congrArg Fin.val (congrFun h ⟨i, hi⟩)
    simp only [digestWordFun] at hfe
    have hm1 : (sha256Words (utf8Bytes (serializeOptions o1))).getD i 0 % w32mod =
        (sha256Words (utf8Bytes (serializeOptions o1))).getD i 0 := by
      apply Nat.mod_eq_of_lt
      rw [List.getD_eq_getElem _ _ h1]
      exact sha256Words_lt _ _ (List.getElem_mem h1)
    have hm2 : (sha256Words (utf8Bytes (serializeOptions o2))).getD i 0 % w32mod =
        (sha256Words (utf8Bytes (serializeOptions o2))).getD i 0 := by
      apply Nat.mod_eq_of_lt
      rw [List.getD_eq_getElem _ _ h2]
      exact sha256Words_lt _ _ (List.getElem_mem h2)
    rw [hm1, hm2] at hfe
    rw [List.getD_eq_getElem _ _ h1, List.getD_eq_getElem _ _ h2] at hfe
    exact hfe

instance : Infinite ElizaCharacterOptions :=
  Infinite.of_injective
    (fun n =>
      { name := String.mk (List.replicate n 'a'), bio := [], lore := [],
        knowledge := [], topics := [], adjectives := [], style := [],
        messageExamples := [], functions := [] })
    (by
      intro m n h
      have := congrArg (fun o => o.name.data.length) h
      simpa using this)

/-- The digest space is finite while definitions are not, so the hash
collides somewhere (classically; sha256 is not injective). -/
theorem hash_collision_exists :
    ∃ o1 o2 : ElizaCharacterOptions, o1 ≠ o2 ∧
      generatePersonalityHash o1 = generatePersonalityHash o2 := by
  obtain ⟨o1, o2, hne, heq⟩ := Finite.exists_ne_map_eq_of_infinite digestWordFun
  refine ⟨o1, o2, hne, ?_⟩
  unfold generatePersonalityHash sha256hex
  rw [words_eq_of_digest_eq o1 o2 heq]

/-- C9 counterexample: the biconditional form of the claim is false for
the embedded hash — equal digests do not force field-for-field equal
definitions, since the digest space is finite and the definition space
is not. -/
theorem personality_hash_not_iff :
    ¬ (∀ d1 d2 : ElizaCharacterOptions,
        generatePersonalityHash d1 = generatePersonalityHash d2 ↔ d1 = d2) := by
  intro hall
  obtain ⟨o1, o2, hne, heq⟩ := hash_collision_exists
  exact hne ((hall o1 o2).mp heq)

/-- C9 (amended): the personality hash is a pure deterministic function
of the definition — field-for-field identical definitions always yield
the same digest.  (The converse direction of the original claim cannot
hold: see the counterexample.) -/
theorem personality_hash_deterministic (d1 d2 : ElizaCharacterOptions)
    (hname : d1.name = d2.name) (hbio : d1.bio = d2.bio) (hlore : d1.lore = d2.lore)
    (hknow : d1.knowledge = d2.knowledge) (htop : d1.topics = d2.topics)
    (hadj : d1.adjectives = d2.adjectives) (hsty : d1.style = d2.style)
    (hmex : d1.messageExamples = d2.messageExamples)
    (hfn : d1.functions = d2.functions) :
    generatePersonalityHash d1 = generatePersonalityHash d2 := by
  have hd : d1 = d2 := by
    cases d1
    cases d2
    simp_all
  rw [hd]

/-- Witness for the amended C9. -/
theorem personality_hash_deterministic_witness :
    (optsA.name = optsA.name ∧ optsA.bio = optsA.bio ∧ optsA.lore = optsA.lore ∧
     optsA.knowledge = optsA.knowledge ∧ optsA.topics = optsA.topics ∧
     optsA.adjectives = optsA.adjectives ∧ optsA.style = optsA.style ∧
     optsA.messageExamples = optsA.messageExamples ∧
     optsA.functions = optsA.functions) ∧
    generatePersonalityHash optsA = generatePersonalityHash optsA :=
  ⟨⟨rfl, rfl, rfl, rfl, rfl, rfl, rfl, rfl, rfl⟩,
   personality_hash_deterministic optsA optsA rfl rfl rfl rfl rfl rfl rfl rfl rfl⟩
